import Mathlib

/-!
Verification development for the Cosmic Cash local development server
(`serve.js` and an earlier variant of the same request handler).

The server is a thin HTTP dispatch shim: it classifies the request path by
substring containment against five mock-API keys and otherwise resolves the
path to a static file under a fixed root directory, trying a short list of
candidate locations in order.

The embedding below models the per-request handler as a pure function of
* the root directory (`root`, given as its list of path segments),
* the startup mock-response cache (four optional text slots),
* the filesystem (a map from absolute path strings to the content of the
  regular file at that path, `none` when no regular file is there),
* the current time in milliseconds (`now`), and
* the request (method and url).

JavaScript string operations (`includes`, `startsWith`, `split`, `slice`,
falsy `||`) and the Node `path` functions (`join`, `normalize`, `extname`)
are modelled by structural recursions over `List Char` so that every
definition evaluates inside the kernel.
-/

/-! ### JavaScript string primitives -/

/-- Is `pre` a prefix of `s` (as char lists)?  Models `String.prototype.startsWith`. -/
def isPrefixCh : List Char → List Char → Bool
  | [], _ => true
  | _ :: _, [] => false
  | a :: as, b :: bs => a == b && isPrefixCh as bs

/-- Does `s` contain `pat` as a contiguous substring?  Models `String.prototype.includes`. -/
def isInfixCh (pat : List Char) : List Char → Bool
  | [] => isPrefixCh pat []
  | c :: rest => isPrefixCh pat (c :: rest) || isInfixCh pat rest

/-- Models JavaScript `s.includes(pat)`. -/
def includesS (s pat : String) : Bool := isInfixCh pat.data s.data

/-- Models JavaScript `s.startsWith(pre)`. -/
def startsWithS (s pre : String) : Bool := isPrefixCh pre.data s.data

/-- Models the JavaScript expression `a || b` where `a` is a string or
`null`/`undefined` (the empty string is falsy). -/
def jsOr (a : Option String) (b : String) : String :=
  match a with
  | none => b
  | some s => if s = "" then b else s

/-- Models `(req.url || "").split("?")[0] || "/"` from the request handler:
the path component of the request target (everything before the first `?`),
with the empty result replaced by `/`. -/
def pathnameOf (url : String) : String :=
  let p : List Char := url.data.takeWhile (fun c => !(c == '?'))
  if p = [] then "/" else ⟨p⟩

/-! ### Node `path` model (POSIX) -/

/-- Split a char list into the `/`-separated segments, keeping empty
segments (mirrors splitting a path string on every slash). -/
def splitSlash : List Char → List (List Char)
  | [] => [[]]
  | c :: rest =>
    match splitSlash rest with
    | s :: ss => if c = '/' then [] :: s :: ss else (c :: s) :: ss
    | [] => [[]]

/-- One step of POSIX path normalization for an absolute path: empty and
`.` segments are dropped, `..` pops the previous segment (or is dropped at
the root), anything else is kept. -/
def normStep (stack : List (List Char)) (seg : List Char) : List (List Char) :=
  if seg = [] ∨ seg = ['.'] then stack
  else if seg = ['.', '.'] then stack.dropLast
  else stack ++ [seg]

/-- Normalize the segments of an absolute path (models the segment
resolution performed by Node's `path.normalize`/`path.join` on POSIX). -/
def normCore (segs : List (List Char)) : List (List Char) := segs.foldl normStep []

/-- Render a segment list as the char list `/seg₁/seg₂/…`. -/
def segsChars : List (List Char) → List Char
  | [] => []
  | s :: rest => '/' :: (s ++ segsChars rest)

/-- Render the segments of an absolute path as a path string (the empty
segment list renders as the filesystem root `/`). -/
def absStr (segs : List (List Char)) : String :=
  match segs with
  | [] => "/"
  | _ => ⟨segsChars segs⟩

/-- The string of the server's root directory `ROOT` (Node `__dirname`),
given its path segments. -/
def rootStr (root : List String) : String := absStr (root.map String.data)

/-- Models `path.join(ROOT, rel)` for the absolute root directory `ROOT`:
the concatenated segments are resolved and rendered.  Node's `path.join`
normalizes its result, so the handler's subsequent `path.normalize` of this
value is the identity. -/
def joinRoot (root : List String) (rel : String) : String :=
  absStr (normCore (root.map String.data ++ splitSlash rel.data))

/-- The part of a path after its last `/` (the basename, as chars). -/
def afterLastSlash (cs : List Char) : List Char :=
  (cs.reverse.takeWhile (fun c => !(c == '/'))).reverse

/-- Index of the last `.` in a char list, if any. -/
def lastDotIdx : List Char → Option Nat
  | [] => none
  | c :: rest =>
    match lastDotIdx rest with
    | some i => some (i + 1)
    | none => if c = '.' then some 0 else none

/-- The extension of a basename: from the last dot, empty when there is no
dot, when the only dot is the leading one, or for the special name `..`
(mirrors Node `path.extname` on the basename). -/
def extFromBase (base : List Char) : String :=
  match lastDotIdx base with
  | none => ""
  | some 0 => ""
  | some i => if base = ['.', '.'] then "" else ⟨base.drop i⟩

/-- Models `path.extname`. -/
def extname (p : String) : String := extFromBase (afterLastSlash p.data)

/-! ### Data model -/

/-- The four optional mock-response bodies loaded once at startup
(`gameServiceBody`, `reloadBalanceBody`, `saveSettingsBody`, `statsBody`);
a slot is `none` when its source file was absent. -/
structure MockCache where
  gameServiceBody : Option String
  reloadBalanceBody : Option String
  saveSettingsBody : Option String
  statsBody : Option String
deriving DecidableEq

/-- An HTTP request as far as the handler observes it: the handler only
ever reads `req.url`, never the method. -/
structure Request where
  method : String
  url : String
deriving DecidableEq

/-- The response produced for one request: status code, optional
`Content-Type` header, whether `Access-Control-Allow-Origin: *` was set,
and the body. -/
structure Response where
  status : Nat
  contentType : Option String
  acao : Bool
  body : String
deriving DecidableEq

/-- The `MIME` extension table of `serve.js`, in source order. -/
def MIME : List (String × String) :=
  [ (".html", "text/html"),
    (".htm", "text/html"),
    (".do", "text/html"),
    (".js", "application/javascript"),
    (".json", "application/json"),
    (".css", "text/css"),
    (".png", "image/png"),
    (".jpg", "image/jpeg"),
    (".jpeg", "image/jpeg"),
    (".gif", "image/gif"),
    (".ico", "image/x-icon"),
    (".svg", "image/svg+xml"),
    (".woff", "font/woff"),
    (".woff2", "font/woff2"),
    (".mp3", "audio/mpeg"),
    (".ogg", "audio/ogg"),
    (".ttf", "font/ttf") ]

/-- First-match association-list lookup (models the JS object index `MIME[ext]`). -/
def lookupStr : List (String × String) → String → Option String
  | [], _ => none
  | (k, v) :: rest, x => if k = x then some v else lookupStr rest x

/-- Models `MIME[ext] || "application/octet-stream"`. -/
def mimeOf (ext : String) : String :=
  jsOr (lookupStr MIME ext) "application/octet-stream"

/-! ### Literal bodies from `serve.js` -/

/-- Fallback body of the `gameService` mock. -/
def fbGameService : String := "balance=100000.00&balance_cash=100000.00&na=s"

/-- Prefix of the fallback body of the `reloadBalance.do` mock; the code
appends `Date.now()`. -/
def stimePre : String :=
  "balance_bonus=0.00&balance=100000.00&balance_cash=100000.00&stime="

/-- Fallback body of the `stats.do` mock. -/
def fbStats : String := "\x7b\"error\":0,\"description\":\"OK\"\x7d"

/-- Fixed body of the `customizations.info` mock. -/
def custBody : String := "\x7b\"customizations\":[]\x7d"

/-- The fixed asset-directory prefix `vsPrefix` of `serve.js`. -/
def vsPre : String :=
  "demogamesfree.pragmaticplay.net/gs2c/common/v1/games-html5/games/vs/vs40cosmiccash/"

/-! ### Request handling (`serve.js`) -/

/-- Models `sendMock(res, body, contentType)`: status 200, content type
defaulting to `application/x-www-form-urlencoded` when absent or empty,
CORS header set, and the given body (`res.end(body || "")` is the identity
here because `body` is a string). -/
def sendMock (body : String) (contentType : Option String) : Response :=
  ⟨200, some (jsOr contentType "application/x-www-form-urlencoded"), true, body⟩

/-- 404 response of the static resolver. -/
def notFound (pathname : String) : Response :=
  ⟨404, none, false, "Not Found: " ++ pathname⟩

/-- 403 response of the path-escape check. -/
def forbidden : Response := ⟨403, none, false, "Forbidden"⟩

/-- 200 response streaming the file at `candidatePath` with the content type
derived from its extension. -/
def serveFile (content : String) (candidatePath : String) : Response :=
  ⟨200, some (mimeOf (extname candidatePath)), false, content⟩

/-- Models `isRoot`/`relPath` of `serve.js`: `/`, the empty path and
`/index.html` map to `index.html`; otherwise one leading slash is
stripped (`pathname.replace(/^\//, "")`). -/
def relPathOf (pathname : String) : String :=
  if pathname = "/" ∨ pathname = "" ∨ pathname = "/index.html" then "index.html"
  else
    match pathname.data with
    | '/' :: rest => ⟨rest⟩
    | _ => pathname

/-- Models `tail = relPath.slice(vsPrefix.length)`. -/
def vsTail (relPath : String) : String := ⟨relPath.data.drop vsPre.data.length⟩

/-- Models the `relCandidates` construction of `serve.js`: the primary
path, then for paths under the `vs40cosmiccash` asset prefix the
`desktop/` variant (when the tail does not already start with `desktop/`)
and the `desktop/game/` variant (when the tail does not already start with
`desktop/game/`; a leading `game/` of the tail is stripped first). -/
def relCandidates (relPath : String) : List String :=
  if startsWithS relPath vsPre then
    [relPath]
    ++ (if !(startsWithS (vsTail relPath) "desktop/") then
          [vsPre ++ "desktop/" ++ vsTail relPath]
        else [])
    ++ (if !(startsWithS (vsTail relPath) "desktop/game/") then
          [vsPre ++ "desktop/game/"
            ++ (if startsWithS (vsTail relPath) "game/" then
                  ⟨(vsTail relPath).data.drop 5⟩
                else vsTail relPath)]
        else [])
  else [relPath]

/-- Models `tryCandidate` of `serve.js`: walk the candidate list in order;
for each candidate resolve it against the root, answer 403 when the
resolved path does not start with the root string, serve the first
candidate that is a regular file, and answer 404 when the list is
exhausted. -/
def tryCandidates (root : List String) (fs : String → Option String)
    (pathname : String) : List String → Response
  | [] => notFound pathname
  | candidateRel :: rest =>
    let candidatePath := joinRoot root candidateRel
    if !(startsWithS candidatePath (rootStr root)) then forbidden
    else
      match fs candidatePath with
      | some content => serveFile content candidatePath
      | none => tryCandidates root fs pathname rest

/-- The static-file part of the `serve.js` handler. -/
def resolveStatic (root : List String) (fs : String → Option String)
    (pathname : String) : Response :=
  tryCandidates root fs pathname (relCandidates (relPathOf pathname))

/-- The per-request handler of `serve.js`: five mock rules by substring
containment, in source order, then the static resolver. -/
def handle (root : List String) (cache : MockCache) (fs : String → Option String)
    (now : Nat) (req : Request) : Response :=
  let pathname := pathnameOf req.url
  if includesS pathname "gameService" then
    sendMock (jsOr cache.gameServiceBody fbGameService) none
  else if includesS pathname "reloadBalance.do" then
    sendMock (jsOr cache.reloadBalanceBody (stimePre ++ toString now)) none
  else if includesS pathname "saveSettings.do" then
    sendMock (jsOr cache.saveSettingsBody "") (some "text/plain")
  else if includesS pathname "stats.do" then
    sendMock (jsOr cache.statsBody fbStats) (some "application/json")
  else if includesS pathname "customizations.info" then
    sendMock custBody (some "application/json")
  else
    resolveStatic root fs pathname

/-- The per-request handler of the earlier variant of the server (the
second source file): identical mock rules, but the static part tries only
the single primary candidate, with the same escape check, file serving and
404 shape. -/
def handleP0 (root : List String) (cache : MockCache) (fs : String → Option String)
    (now : Nat) (req : Request) : Response :=
  let pathname := pathnameOf req.url
  if includesS pathname "gameService" then
    sendMock (jsOr cache.gameServiceBody fbGameService) none
  else if includesS pathname "reloadBalance.do" then
    sendMock (jsOr cache.reloadBalanceBody (stimePre ++ toString now)) none
  else if includesS pathname "saveSettings.do" then
    sendMock (jsOr cache.saveSettingsBody "") (some "text/plain")
  else if includesS pathname "stats.do" then
    sendMock (jsOr cache.statsBody fbStats) (some "application/json")
  else if includesS pathname "customizations.info" then
    sendMock custBody (some "application/json")
  else
    let relPath := relPathOf pathname
    let filePath := joinRoot root relPath
    if !(startsWithS filePath (rootStr root)) then forbidden
    else
      match fs filePath with
      | some content => serveFile content filePath
      | none => notFound pathname

/-! ### Specification-side vocabulary -/

/-- The five mock-rule substrings, in the priority order of the source. -/
def mockKey : Fin 5 → String
  | ⟨0, _⟩ => "gameService"
  | ⟨1, _⟩ => "reloadBalance.do"
  | ⟨2, _⟩ => "saveSettings.do"
  | ⟨3, _⟩ => "stats.do"
  | ⟨4, _⟩ => "customizations.info"

/-- The response mandated by each mock rule. -/
def mockAt : Fin 5 → MockCache → Nat → Response
  | ⟨0, _⟩, c, _ => sendMock (jsOr c.gameServiceBody fbGameService) none
  | ⟨1, _⟩, c, now => sendMock (jsOr c.reloadBalanceBody (stimePre ++ toString now)) none
  | ⟨2, _⟩, c, _ => sendMock (jsOr c.saveSettingsBody "") (some "text/plain")
  | ⟨3, _⟩, c, _ => sendMock (jsOr c.statsBody fbStats) (some "application/json")
  | ⟨4, _⟩, _, _ => sendMock custBody (some "application/json")

/-- The first mock rule whose substring the path contains, if any. -/
def firstMatch (p : String) : Option (Fin 5) :=
  (List.finRange 5).find? (fun i => includesS p (mockKey i))

/-- Is the absolute path string `p` inside the root directory (the root
itself or a path below it)?  This is the directory-containment reading of
"inside root", as opposed to the string-prefix check of the code. -/
def underRootB (root : List String) (p : String) : Bool :=
  p = rootStr root || startsWithS p (rootStr root ++ "/")

/-- A well-formed root directory: at least one segment, each segment
non-empty, not a dot segment, and free of slashes (any real `__dirname`
satisfies this). -/
def CleanRoot (root : List String) : Prop :=
  root ≠ [] ∧ ∀ s ∈ root, s.data ≠ [] ∧ s.data ≠ ['.'] ∧ s.data ≠ ['.', '.'] ∧ '/' ∉ s.data

instance : DecidablePred CleanRoot := fun root => by
  unfold CleanRoot; infer_instance

/-! ### Concrete fixtures used by witnesses and counterexamples -/

/-- A cache with no slot loaded. -/
def cacheNone : MockCache := ⟨none, none, none, none⟩

/-- A cache whose gameService slot was loaded from an empty file. -/
def cacheEmptyGS : MockCache := ⟨some "", none, none, none⟩

/-- A cache whose gameService slot holds a non-empty body. -/
def cacheGS : MockCache := ⟨some "CACHED", none, none, none⟩

/-- An empty filesystem. -/
def fsEmpty : String → Option String := fun _ => none

/-- A filesystem with one secret file at `/srvX`, a sibling of the root
directory `/srv` whose name extends the root's name. -/
def fsC1 : String → Option String :=
  fun p => if p = "/srvX" then some "secret" else none

/-- A filesystem with `index.html` under the root `/srv`. -/
def fsIdx : String → Option String :=
  fun p => if p = "/srv/index.html" then some "<html>hello" else none

/-- A filesystem with one asset file at the `desktop/` fallback location. -/
def fsC4 : String → Option String :=
  fun p => if p = "/srv/" ++ vsPre ++ "desktop/a.json" then some "DATA" else none

/-! ### Helper lemmas -/

theorem isPrefixCh_append (l t : List Char) : isPrefixCh l (l ++ t) = true := by
  induction l with
  | nil => rfl
  | cons c cs ih => simp [isPrefixCh, ih]

theorem startsWithS_append (a b : String) : startsWithS (a ++ b) a = true := by
  unfold startsWithS
  rw [String.data_append]
  exact isPrefixCh_append a.data b.data

theorem takeWhile_append_pos {α : Type} (p : α → Bool) (l t : List α)
    (h : ∀ c ∈ l, p c = true) :
    List.takeWhile p (l ++ t) = l ++ List.takeWhile p t := by
  induction l with
  | nil => rfl
  | cons c cs ih =>
    have hc : p c = true := h c (List.mem_cons_self c cs)
    simp [List.takeWhile_cons, hc]
    exact ih (fun x hx => h x (List.mem_cons_of_mem c hx))

theorem afterLastSlash_append (a b : List Char) (h : '/' ∉ b) :
    afterLastSlash (a ++ '/' :: b) = b := by
  unfold afterLastSlash
  rw [List.reverse_append, List.reverse_cons]
  have hall : ∀ c ∈ b.reverse, (!(c == '/')) = true := by
    intro c hc
    have : c ∈ b := List.mem_reverse.mp hc
    simp only [Bool.not_eq_true']
    exact beq_eq_false_iff_ne.mpr (fun he => h (he ▸ this))
  rw [List.append_assoc, takeWhile_append_pos _ _ _ hall]
  simp [List.takeWhile_cons]

theorem normStep_clean (acc : List (List Char)) (s : List Char)
    (h : s ≠ [] ∧ s ≠ ['.'] ∧ s ≠ ['.', '.']) :
    normStep acc s = acc ++ [s] := by
  unfold normStep
  rw [if_neg (by simp [h.1, h.2.1]), if_neg h.2.2]

theorem foldl_normStep_clean (segs : List (List Char)) :
    ∀ acc, (∀ s ∈ segs, s ≠ [] ∧ s ≠ ['.'] ∧ s ≠ ['.', '.']) →
    List.foldl normStep acc segs = acc ++ segs := by
  induction segs with
  | nil => intro acc _; simp
  | cons s rest ih =>
    intro acc h
    rw [List.foldl_cons, normStep_clean acc s (h s (List.mem_cons_self s rest))]
    rw [ih (acc ++ [s]) (fun x hx => h x (List.mem_cons_of_mem s hx))]
    simp

theorem normCore_clean (segs : List (List Char))
    (h : ∀ s ∈ segs, s ≠ [] ∧ s ≠ ['.'] ∧ s ≠ ['.', '.']) :
    normCore segs = segs := by
  unfold normCore
  rw [foldl_normStep_clean segs [] h]
  rfl

theorem segsChars_append (a b : List (List Char)) :
    segsChars (a ++ b) = segsChars a ++ segsChars b := by
  induction a with
  | nil => rfl
  | cons s rest ih => simp [segsChars, ih]

theorem absStr_append_single (l : List (List Char)) (cs : List Char) (h : l ≠ []) :
    absStr (l ++ [cs]) = absStr l ++ (⟨'/' :: cs⟩ : String) := by
  match l with
  | [] => exact absurd rfl h
  | a :: rest =>
    show (⟨segsChars ((a :: rest) ++ [cs])⟩ : String) = ⟨segsChars (a :: rest)⟩ ++ ⟨'/' :: cs⟩
    have hch : segsChars ((a :: rest) ++ [cs]) = segsChars (a :: rest) ++ ('/' :: cs) := by
      rw [segsChars_append]
      simp [segsChars]
    rw [hch]
    rfl

theorem joinRoot_index (root : List String) (hroot : CleanRoot root) :
    joinRoot root "index.html" = rootStr root ++ "/index.html" := by
  obtain ⟨hne, hall⟩ := hroot
  unfold joinRoot
  rw [show splitSlash "index.html".data = ["index.html".data] from rfl]
  rw [normCore_clean]
  · have hmapne : root.map String.data ≠ [] := by
      intro hmap
      exact hne (List.map_eq_nil_iff.mp hmap)
    rw [absStr_append_single _ _ hmapne]
    rfl
  · intro s hs
    rcases List.mem_append.mp hs with h1 | h2
    · obtain ⟨t, ht, rfl⟩ := List.mem_map.mp h1
      exact ⟨(hall t ht).1, (hall t ht).2.1, (hall t ht).2.2.1⟩
    · have hse : s = "index.html".data := by simpa using h2
      subst hse
      refine ⟨by decide, by decide, by decide⟩

theorem extname_root_index (root : List String) :
    extname (rootStr root ++ "/index.html") = ".html" := by
  unfold extname
  rw [String.data_append]
  rw [show "/index.html".data = '/' :: "index.html".data from rfl]
  rw [afterLastSlash_append _ _ (by decide)]
  rfl

theorem relCandidates_head (r : String) : ∃ rest, relCandidates r = r :: rest := by
  unfold relCandidates
  split
  · exact ⟨(if !(startsWithS (vsTail r) "desktop/") then [vsPre ++ "desktop/" ++ vsTail r] else [])
      ++ (if !(startsWithS (vsTail r) "desktop/game/") then
            [vsPre ++ "desktop/game/"
              ++ (if startsWithS (vsTail r) "game/" then
                    ⟨(vsTail r).data.drop 5⟩
                  else vsTail r)]
          else []), by rw [List.append_assoc]; rfl⟩
  · exact ⟨[], rfl⟩

theorem handle_classify (root : List String) (cache : MockCache)
    (fs : String → Option String) (now : Nat) (req : Request) :
    handle root cache fs now req =
      match firstMatch (pathnameOf req.url) with
      | some i => mockAt i cache now
      | none => resolveStatic root fs (pathnameOf req.url) := by
  have hfr : List.finRange 5 = [0, 1, 2, 3, 4] := by decide
  have k0 : mockKey 0 = "gameService" := rfl
  have k1 : mockKey 1 = "reloadBalance.do" := rfl
  have k2 : mockKey 2 = "saveSettings.do" := rfl
  have k3 : mockKey 3 = "stats.do" := rfl
  have k4 : mockKey 4 = "customizations.info" := rfl
  unfold handle firstMatch
  rw [hfr]
  cases h0 : includesS (pathnameOf req.url) "gameService" <;>
  cases h1 : includesS (pathnameOf req.url) "reloadBalance.do" <;>
  cases h2 : includesS (pathnameOf req.url) "saveSettings.do" <;>
  cases h3 : includesS (pathnameOf req.url) "stats.do" <;>
  cases h4 : includesS (pathnameOf req.url) "customizations.info" <;>
    simp [List.find?, k0, k1, k2, k3, k4, h0, h1, h2, h3, h4, mockAt]

theorem tryCandidates_first (root : List String) (fs : String → Option String)
    (pathname content : String) (cands : List String) :
    ∀ i : Nat, i < cands.length →
    (∀ j, j < i → startsWithS (joinRoot root (cands.getD j "")) (rootStr root) = true
      ∧ fs (joinRoot root (cands.getD j "")) = none) →
    startsWithS (joinRoot root (cands.getD i "")) (rootStr root) = true →
    fs (joinRoot root (cands.getD i "")) = some content →
    tryCandidates root fs pathname cands
      = serveFile content (joinRoot root (cands.getD i "")) := by
  induction cands with
  | nil => intro i hi; simp at hi
  | cons c rest ih =>
    intro i hi hprev hchk hfs
    cases i with
    | zero =>
      simp only [List.getD_cons_zero] at hchk hfs ⊢
      unfold tryCandidates
      simp [hchk, hfs]
    | succ i =>
      have h0 := hprev 0 (Nat.succ_pos i)
      simp only [List.getD_cons_zero] at h0
      simp only [List.getD_cons_succ] at hchk hfs ⊢
      unfold tryCandidates
      simp only [h0.1, Bool.not_true, if_false, h0.2]
      exact ih i (by simpa using hi)
        (fun j hj => by simpa using hprev (j + 1) (by omega)) hchk hfs

theorem mime_html : mimeOf ".html" = "text/html" := by decide

theorem tryCandidates_index (root : List String) (fs : String → Option String)
    (pathname content : String) (hroot : CleanRoot root)
    (hfs : fs (rootStr root ++ "/index.html") = some content) :
    tryCandidates root fs pathname ["index.html"]
      = ⟨200, some "text/html", false, content⟩ := by
  unfold tryCandidates
  rw [joinRoot_index root hroot]
  simp [startsWithS_append, hfs, serveFile, extname_root_index root, mime_html]

/-- C3: path classification tests the five mock substrings in the fixed
priority order gameService, reloadBalance.do, saveSettings.do, stats.do,
customizations.info, with first match (substring containment) winning: the
response equals the response of the earliest matching rule, and a path
containing none of the five substrings is delegated to the static file
resolver. -/
theorem c3_classification_order (root : List String) (cache : MockCache)
    (fs : String → Option String) (now : Nat) (req : Request) :
    handle root cache fs now req =
      match firstMatch (pathnameOf req.url) with
      | some i => mockAt i cache now
      | none => resolveStatic root fs (pathnameOf req.url) :=
  handle_classify root cache fs now req

/-- C9: for every request (any method, GET included), the handler is a
deterministic function of the request url, the cache, the filesystem and
the current time; two runs at different times agree on status, content
type and CORS header, and their bodies agree except that both may be the
reloadBalance fallback body, which embeds the respective timestamp. -/
theorem c9_deterministic_modulo_time (root : List String) (cache : MockCache)
    (fs : String → Option String) (req : Request) (now₁ now₂ : Nat) :
    (handle root cache fs now₁ req).status = (handle root cache fs now₂ req).status
    ∧ (handle root cache fs now₁ req).contentType = (handle root cache fs now₂ req).contentType
    ∧ (handle root cache fs now₁ req).acao = (handle root cache fs now₂ req).acao
    ∧ ((handle root cache fs now₁ req).body = (handle root cache fs now₂ req).body
       ∨ ((handle root cache fs now₁ req).body = stimePre ++ toString now₁
          ∧ (handle root cache fs now₂ req).body = stimePre ++ toString now₂)) := by
  rw [handle_classify root cache fs now₁ req, handle_classify root cache fs now₂ req]
  cases h : firstMatch (pathnameOf req.url) with
  | none => exact ⟨rfl, rfl, rfl, Or.inl rfl⟩
  | some i =>
    fin_cases i
    · exact ⟨rfl, rfl, rfl, Or.inl rfl⟩
    · refine ⟨rfl, rfl, rfl, ?_⟩
      cases hc : cache.reloadBalanceBody with
      | none =>
        exact Or.inr ⟨by simp [mockAt, sendMock, jsOr, hc],
          by simp [mockAt, sendMock, jsOr, hc]⟩
      | some s =>
        by_cases hs : s = ""
        · exact Or.inr ⟨by simp [mockAt, sendMock, jsOr, hc, hs],
            by simp [mockAt, sendMock, jsOr, hc, hs]⟩
        · exact Or.inl (by simp [mockAt, sendMock, jsOr, hc, hs])
    · exact ⟨rfl, rfl, rfl, Or.inl rfl⟩
    · exact ⟨rfl, rfl, rfl, Or.inl rfl⟩
    · exact ⟨rfl, rfl, rfl, Or.inl rfl⟩

/-- C10: on every request whose path contains none of the five mock
substrings and whose relative path does not begin with the vs40cosmiccash
asset prefix, the two handler implementations produce identical responses
(status, content type, CORS header and body), for every root, filesystem
and cache state. -/
theorem c10_handlers_agree (root : List String) (cache : MockCache)
    (fs : String → Option String) (now : Nat) (req : Request)
    (h0 : includesS (pathnameOf req.url) "gameService" = false)
    (h1 : includesS (pathnameOf req.url) "reloadBalance.do" = false)
    (h2 : includesS (pathnameOf req.url) "saveSettings.do" = false)
    (h3 : includesS (pathnameOf req.url) "stats.do" = false)
    (h4 : includesS (pathnameOf req.url) "customizations.info" = false)
    (h5 : startsWithS (relPathOf (pathnameOf req.url)) vsPre = false) :
    handle root cache fs now req = handleP0 root cache fs now req := by
  unfold handle handleP0 resolveStatic
  simp only [h0, h1, h2, h3, h4, if_false, Bool.false_eq_true]
  rw [show relCandidates (relPathOf (pathnameOf req.url))
        = [relPathOf (pathnameOf req.url)] from by
      unfold relCandidates
      rw [if_neg (by simp [h5])]]
  rfl

/-- C10 witness at a concrete request with an empty filesystem: both
handlers answer the same 404. -/
theorem c10_handlers_agree_witness :
    includesS (pathnameOf "/foo.txt") "gameService" = false
    ∧ startsWithS (relPathOf (pathnameOf "/foo.txt")) vsPre = false
    ∧ handle ["srv"] cacheNone fsEmpty 0 ⟨ "GET", "/foo.txt"⟩
        = handleP0 ["srv"] cacheNone fsEmpty 0 ⟨ "GET", "/foo.txt"⟩ :=
  ⟨by decide, by decide,
   c10_handlers_agree ["srv"] cacheNone fsEmpty 0 ⟨ "GET", "/foo.txt"⟩
     (by decide) (by decide) (by decide) (by decide) (by decide) (by decide)⟩

/-- C1 counterexample: with root directory `/srv`, the request
`/../srvX` joins and normalizes to `/srvX`, which lies outside the root
directory, yet the string-prefix check `normalized.startsWith(ROOT)`
accepts it and the handler serves the sibling file's content with status
200 instead of answering 403 Forbidden. -/
theorem c1_escape_counterexample :
    underRootB ["srv"] (joinRoot ["srv"] (relPathOf (pathnameOf "/../srvX"))) = false
    ∧ handle ["srv"] cacheNone fsC1 0 ⟨ "GET", "/../srvX"⟩
        = ⟨200, some "application/octet-stream", false, "secret"⟩
    ∧ (⟨200, some "application/octet-stream", false, "secret"⟩ : Response) ≠ forbidden := by
  refine ⟨by decide, by decide, by decide⟩

/-- C1 (amended): for every request that matches no mock rule and whose
primary candidate, joined with the root and normalized, does not have the
root path string as a prefix, the response is 403 with body `Forbidden`,
independently of the filesystem (so no file content is returned and no
further candidate is tried). -/
theorem c1_forbidden_on_failed_check (root : List String) (cache : MockCache)
    (fs : String → Option String) (now : Nat) (req : Request)
    (h0 : includesS (pathnameOf req.url) "gameService" = false)
    (h1 : includesS (pathnameOf req.url) "reloadBalance.do" = false)
    (h2 : includesS (pathnameOf req.url) "saveSettings.do" = false)
    (h3 : includesS (pathnameOf req.url) "stats.do" = false)
    (h4 : includesS (pathnameOf req.url) "customizations.info" = false)
    (hesc : startsWithS (joinRoot root (relPathOf (pathnameOf req.url))) (rootStr root)
      = false) :
    handle root cache fs now req = forbidden := by
  unfold handle resolveStatic
  simp only [h0, h1, h2, h3, h4, Bool.false_eq_true, if_false]
  obtain ⟨rest, hr⟩ := relCandidates_head (relPathOf (pathnameOf req.url))
  rw [hr]
  unfold tryCandidates
  simp [hesc]

/-- C1 witness: a concrete escaping request is answered 403 Forbidden. -/
theorem c1_forbidden_witness :
    startsWithS (joinRoot ["srv"] (relPathOf (pathnameOf "/../../x"))) (rootStr ["srv"])
      = false
    ∧ handle ["srv"] cacheNone fsEmpty 0 ⟨ "GET", "/../../x"⟩ = forbidden :=
  ⟨by decide,
   c1_forbidden_on_failed_check ["srv"] cacheNone fsEmpty 0 ⟨ "GET", "/../../x"⟩
     (by decide) (by decide) (by decide) (by decide) (by decide) (by decide)⟩

/-- C2 counterexample: when the gameService slot was loaded from an empty
file (`some ""`), the JavaScript expression `gameServiceBody || fallback`
is falsy, so the handler answers with the literal fallback body rather
than the cached (empty) body the claim mandates. -/
theorem c2_gameservice_counterexample :
    cacheEmptyGS.gameServiceBody = some ""
    ∧ (handle ["srv"] cacheEmptyGS fsEmpty 0 ⟨ "GET", "/gameService"⟩).body = fbGameService
    ∧ fbGameService ≠ "" := by
  refine ⟨rfl, by decide, by decide⟩

/-- C2 (amended): for every request whose path (query string discarded)
contains `gameService`, the response has status 200, content type
`application/x-www-form-urlencoded`, the CORS header, and body equal to
the cached gameService body if it was loaded at startup and is non-empty,
else the fixed literal fallback; this holds for every method, query
string, filesystem and time. -/
theorem c2_gameservice_mock (root : List String) (cache : MockCache)
    (fs : String → Option String) (now : Nat) (req : Request)
    (h : includesS (pathnameOf req.url) "gameService" = true) :
    handle root cache fs now req =
      ⟨200, some "application/x-www-form-urlencoded", true,
        match cache.gameServiceBody with
        | some s => if s = "" then fbGameService else s
        | none => fbGameService⟩ := by
  unfold handle
  cases hgs : cache.gameServiceBody with
  | none => simp [h, hgs, sendMock, jsOr]
  | some s => by_cases hs : s = "" <;> simp [h, hgs, hs, sendMock, jsOr]

/-- C2 witness: a POST with query string and a loaded non-empty cache slot
receives the cached body. -/
theorem c2_gameservice_witness :
    includesS (pathnameOf "/x/gameService?y=2") "gameService" = true
    ∧ handle ["srv"] cacheGS fsEmpty 0 ⟨ "POST", "/x/gameService?y=2"⟩
        = ⟨200, some "application/x-www-form-urlencoded", true, "CACHED"⟩ :=
  ⟨by decide,
   (c2_gameservice_mock ["srv"] cacheGS fsEmpty 0 ⟨ "POST", "/x/gameService?y=2"⟩
     (by decide)).trans (by decide)⟩

/-- C5 counterexample: the request target `/page.html?ref=stats.do`
contains `stats.do`, but only in the query string; the handler classifies
on the path component `/page.html`, so the request is delegated to the
static resolver (here a 404) and does not receive the stats mock. -/
theorem c5_query_counterexample :
    includesS "/page.html?ref=stats.do" "stats.do" = true
    ∧ handle ["srv"] cacheNone fsEmpty 0 ⟨ "GET", "/page.html?ref=stats.do"⟩
        = notFound "/page.html"
    ∧ notFound "/page.html" ≠ sendMock (jsOr cacheNone.statsBody fbStats)
        (some "application/json") := by
  refine ⟨by decide, by decide, by decide⟩

/-- C5 (amended): mock classification is applied to the path component of
the request target only (query string discarded): a request whose path
component contains `stats.do` and none of the three earlier mock
substrings receives the stats mock response; an occurrence of `stats.do`
only in the query string does not trigger the rule. -/
theorem c5_path_only_classification (root : List String) (cache : MockCache)
    (fs : String → Option String) (now : Nat) (req : Request)
    (h0 : includesS (pathnameOf req.url) "gameService" = false)
    (h1 : includesS (pathnameOf req.url) "reloadBalance.do" = false)
    (h2 : includesS (pathnameOf req.url) "saveSettings.do" = false)
    (h3 : includesS (pathnameOf req.url) "stats.do" = true) :
    handle root cache fs now req
      = sendMock (jsOr cache.statsBody fbStats) (some "application/json") := by
  unfold handle
  simp [h0, h1, h2, h3]

/-- C5 witness: `/stats.do` itself receives the stats mock. -/
theorem c5_path_only_witness :
    includesS (pathnameOf "/stats.do?p=1") "stats.do" = true
    ∧ handle ["srv"] cacheNone fsEmpty 0 ⟨ "GET", "/stats.do?p=1"⟩
        = sendMock (jsOr cacheNone.statsBody fbStats) (some "application/json") :=
  ⟨by decide,
   c5_path_only_classification ["srv"] cacheNone fsEmpty 0 ⟨ "GET", "/stats.do?p=1"⟩
     (by decide) (by decide) (by decide) (by decide)⟩

/-- C6: a request to `/reloadBalance.do?x=1` with no cached reloadBalance
body yields status 200, content type `application/x-www-form-urlencoded`,
and body equal to the literal fallback prefix followed by the current time
in milliseconds, for every method, root, filesystem and cache satisfying
the hypothesis. -/
theorem c6_reload_fallback (root : List String) (cache : MockCache)
    (fs : String → Option String) (now : Nat) (m : String)
    (h : cache.reloadBalanceBody = none) :
    handle root cache fs now ⟨m, "/reloadBalance.do?x=1"⟩ =
      ⟨200, some "application/x-www-form-urlencoded", true,
        "balance_bonus=0.00&balance=100000.00&balance_cash=100000.00&stime="
          ++ toString now⟩ := by
  unfold handle
  have hp : pathnameOf "/reloadBalance.do?x=1" = "/reloadBalance.do" := by decide
  have i0 : includesS "/reloadBalance.do" "gameService" = false := by decide
  have i1 : includesS "/reloadBalance.do" "reloadBalance.do" = true := by decide
  simp [hp, i0, i1, h, sendMock, jsOr, stimePre]

/-- C6 witness at a concrete time. -/
theorem c6_reload_witness :
    cacheNone.reloadBalanceBody = none
    ∧ handle ["srv"] cacheNone fsEmpty 1730000000000 ⟨ "GET", "/reloadBalance.do?x=1"⟩
        = ⟨200, some "application/x-www-form-urlencoded", true,
           "balance_bonus=0.00&balance=100000.00&balance_cash=100000.00&stime="
             ++ toString 1730000000000⟩ :=
  ⟨rfl, c6_reload_fallback ["srv"] cacheNone fsEmpty 1730000000000 "GET" rfl⟩

/-- C7: every request whose path contains `customizations.info` and none
of the four earlier mock substrings is answered 200 with content type
`application/json`, the CORS header, and exactly the literal body, no
matter the filesystem or which mock files were loaded. -/
theorem c7_customizations_fixed (root : List String) (cache : MockCache)
    (fs : String → Option String) (now : Nat) (req : Request)
    (h4 : includesS (pathnameOf req.url) "customizations.info" = true)
    (h0 : includesS (pathnameOf req.url) "gameService" = false)
    (h1 : includesS (pathnameOf req.url) "reloadBalance.do" = false)
    (h2 : includesS (pathnameOf req.url) "saveSettings.do" = false)
    (h3 : includesS (pathnameOf req.url) "stats.do" = false) :
    handle root cache fs now req = ⟨200, some "application/json", true, custBody⟩
    ∧ custBody = "\x7b\"customizations\":[]\x7d" := by
  constructor
  · unfold handle
    simp [h0, h1, h2, h3, h4, sendMock, jsOr]
  · rfl

/-- C7 witness at the literal path. -/
theorem c7_customizations_witness :
    includesS (pathnameOf "/customizations.info") "customizations.info" = true
    ∧ (handle ["srv"] cacheNone fsEmpty 0 ⟨ "GET", "/customizations.info"⟩
        = ⟨200, some "application/json", true, custBody⟩
       ∧ custBody = "\x7b\"customizations\":[]\x7d") :=
  ⟨by decide,
   c7_customizations_fixed ["srv"] cacheNone fsEmpty 0 ⟨ "GET", "/customizations.info"⟩
     (by decide) (by decide) (by decide) (by decide) (by decide)⟩

/-- C4 counterexample: for a tail that begins with `game/` (and not with
`desktop/`), the third candidate is built from the tail with the leading
`game/` stripped, so the candidate list is not the one the claim
describes (whose third element would keep the tail unchanged, yielding
`desktop/game/game/…`). -/
theorem c4_candidates_counterexample :
    relCandidates (vsPre ++ "game/main.json") =
      [vsPre ++ "game/main.json",
       vsPre ++ "desktop/game/main.json",
       vsPre ++ "desktop/game/main.json"]
    ∧ relCandidates (vsPre ++ "game/main.json") ≠
      [vsPre ++ "game/main.json",
       vsPre ++ "desktop/game/main.json",
       vsPre ++ "desktop/game/game/main.json"] := by
  refine ⟨by decide, by decide⟩

/-- C4 (amended): for every relative path under the vs40cosmiccash asset
prefix, the candidate list is the primary path; then, if the tail does not
start with `desktop/`, the prefix plus `desktop/` plus the unchanged tail;
then, if the tail does not start with `desktop/game/`, the prefix plus
`desktop/game/` plus the tail with a leading `game/` segment stripped when
present.  Candidates are tried in this order and the first existing
regular file (all candidates up to it passing the root check) is the one
served. -/
theorem c4_candidate_order (relPath : String)
    (h : startsWithS relPath vsPre = true) :
    (relCandidates relPath =
      [relPath]
      ++ (if startsWithS (vsTail relPath) "desktop/" = true then []
          else [vsPre ++ "desktop/" ++ vsTail relPath])
      ++ (if startsWithS (vsTail relPath) "desktop/game/" = true then []
          else [vsPre ++ "desktop/game/"
            ++ (if startsWithS (vsTail relPath) "game/" = true
                then (⟨(vsTail relPath).data.drop 5⟩ : String)
                else vsTail relPath)]))
    ∧ ∀ (root : List String) (fs : String → Option String) (pathname content : String)
        (i : Nat), i < (relCandidates relPath).length →
        (∀ j, j < i →
          startsWithS (joinRoot root ((relCandidates relPath).getD j "")) (rootStr root) = true
          ∧ fs (joinRoot root ((relCandidates relPath).getD j "")) = none) →
        startsWithS (joinRoot root ((relCandidates relPath).getD i "")) (rootStr root) = true →
        fs (joinRoot root ((relCandidates relPath).getD i "")) = some content →
        tryCandidates root fs pathname (relCandidates relPath)
          = serveFile content (joinRoot root ((relCandidates relPath).getD i "")) := by
  constructor
  · unfold relCandidates
    rw [if_pos h]
    cases hX : startsWithS (vsTail relPath) "desktop/" <;>
    cases hY : startsWithS (vsTail relPath) "desktop/game/" <;>
    cases hZ : startsWithS (vsTail relPath) "game/" <;>
      simp [hX, hY, hZ]
  · intro root fs pathname content i hi hprev hchk hfs
    exact tryCandidates_first root fs pathname content (relCandidates relPath) i hi hprev hchk hfs

/-- C4 witness: for `a.json` under the asset prefix, the primary candidate
is absent, the `desktop/` variant exists and is served. -/
theorem c4_candidate_witness :
    startsWithS (vsPre ++ "a.json") vsPre = true
    ∧ tryCandidates ["srv"] fsC4 "/x" (relCandidates (vsPre ++ "a.json"))
        = serveFile "DATA" (joinRoot ["srv"] ((relCandidates (vsPre ++ "a.json")).getD 1 "")) :=
  ⟨by decide,
   (c4_candidate_order (vsPre ++ "a.json") (by decide)).2 ["srv"] fsC4 "/x" "DATA" 1
     (by decide)
     (fun j hj => by
        have hj0 : j = 0 := Nat.lt_one_iff.mp hj
        subst hj0
        exact ⟨by decide, by decide⟩)
     (by decide) (by decide)⟩

/-- C8: with a regular file `index.html` directly under the root, the
requests `/`, `/index.html` (and the empty path) all map to the primary
candidate `index.html` and receive the same 200 response with the file's
bytes and content type `text/html`. -/
theorem c8_root_index_equiv (root : List String) (cache : MockCache)
    (fs : String → Option String) (now : Nat) (m₁ m₂ m₃ : String) (content : String)
    (hroot : CleanRoot root)
    (hfs : fs (rootStr root ++ "/index.html") = some content) :
    handle root cache fs now ⟨m₁, "/"⟩ = handle root cache fs now ⟨m₂, "/index.html"⟩
    ∧ handle root cache fs now ⟨m₁, "/"⟩ = ⟨200, some "text/html", false, content⟩
    ∧ handle root cache fs now ⟨m₃, ""⟩ = handle root cache fs now ⟨m₁, "/"⟩
    ∧ relPathOf (pathnameOf "/") = "index.html"
    ∧ relPathOf (pathnameOf "/index.html") = "index.html"
    ∧ relPathOf (pathnameOf "") = "index.html" := by
  have e1 : handle root cache fs now ⟨m₁, "/"⟩ = ⟨200, some "text/html", false, content⟩ := by
    show tryCandidates root fs "/" (relCandidates (relPathOf "/")) = _
    rw [show relCandidates (relPathOf "/") = ["index.html"] from by decide]
    exact tryCandidates_index root fs "/" content hroot hfs
  have e2 : handle root cache fs now ⟨m₂, "/index.html"⟩
      = ⟨200, some "text/html", false, content⟩ := by
    show tryCandidates root fs "/index.html" (relCandidates (relPathOf "/index.html")) = _
    rw [show relCandidates (relPathOf "/index.html") = ["index.html"] from by decide]
    exact tryCandidates_index root fs "/index.html" content hroot hfs
  have e3 : handle root cache fs now ⟨m₃, ""⟩ = ⟨200, some "text/html", false, content⟩ := by
    show tryCandidates root fs "/" (relCandidates (relPathOf "/")) = _
    rw [show relCandidates (relPathOf "/") = ["index.html"] from by decide]
    exact tryCandidates_index root fs "/" content hroot hfs
  exact ⟨e1.trans e2.symm, e1, e3.trans e1.symm, by decide, by decide, by decide⟩

/-- C8 witness at the concrete root `/srv` with a concrete `index.html`. -/
theorem c8_root_index_witness :
    CleanRoot ["srv"]
    ∧ fsIdx (rootStr ["srv"] ++ "/index.html") = some "<html>hello"
    ∧ (handle ["srv"] cacheNone fsIdx 0 ⟨ "GET", "/"⟩
        = handle ["srv"] cacheNone fsIdx 0 ⟨ "HEAD", "/index.html"⟩
       ∧ handle ["srv"] cacheNone fsIdx 0 ⟨ "GET", "/"⟩
        = ⟨200, some "text/html", false, "<html>hello"⟩
       ∧ handle ["srv"] cacheNone fsIdx 0 ⟨ "PUT", ""⟩
        = handle ["srv"] cacheNone fsIdx 0 ⟨ "GET", "/"⟩
       ∧ relPathOf (pathnameOf "/") = "index.html"
       ∧ relPathOf (pathnameOf "/index.html") = "index.html"
       ∧ relPathOf (pathnameOf "") = "index.html") :=
  ⟨by decide, by decide,
   c8_root_index_equiv ["srv"] cacheNone fsIdx 0 "GET" "HEAD" "PUT" "<html>hello"
     (by decide) (by decide)⟩
